import Mathlib

/-!
Verification of the minikeyvalue master server (src/lib.go, src/server.go).

The embedding works over raw byte strings: Go byte slices and Go strings are
both modelled as List Nat with every element below 256.  Pure functions of
lib.go (md5-based placement and content addressing) are translated directly;
the HTTP handler of server.go is translated as a function from the request,
the in-process state (metadata store, lock table) and the outcomes of the
external calls (leveldb errors, remote HTTP results) to a result record
carrying the status code, the successor state and the issued remote calls.
-/

set_option maxRecDepth 100000

namespace MiniKV

/-! ## MD5 (crypto/md5), operating on byte lists -/

def u32 (n : Nat) : Nat := n % 4294967296

def rotl32 (x s : Nat) : Nat := u32 (x <<< s) ||| (x >>> (32 - s))

def md5KT : List Nat :=
  [0xd76aa478, 0xe8c7b756, 0x242070db, 0xc1bdceee,
   0xf57c0faf, 0x4787c62a, 0xa8304613, 0xfd469501,
   0x698098d8, 0x8b44f7af, 0xffff5bb1, 0x895cd7be,
   0x6b901122, 0xfd987193, 0xa679438e, 0x49b40821,
   0xf61e2562, 0xc040b340, 0x265e5a51, 0xe9b6c7aa,
   0xd62f105d, 0x02441453, 0xd8a1e681, 0xe7d3fbc8,
   0x21e1cde6, 0xc33707d6, 0xf4d50d87, 0x455a14ed,
   0xa9e3e905, 0xfcefa3f8, 0x676f02d9, 0x8d2a4c8a,
   0xfffa3942, 0x8771f681, 0x6d9d6122, 0xfde5380c,
   0xa4beea44, 0x4bdecfa9, 0xf6bb4b60, 0xbebfbc70,
   0x289b7ec6, 0xeaa127fa, 0xd4ef3085, 0x04881d05,
   0xd9d4d039, 0xe6db99e5, 0x1fa27cf8, 0xc4ac5665,
   0xf4292244, 0x432aff97, 0xab9423a7, 0xfc93a039,
   0x655b59c3, 0x8f0ccc92, 0xffeff47d, 0x85845dd1,
   0x6fa87e4f, 0xfe2ce6e0, 0xa3014314, 0x4e0811a1,
   0xf7537e82, 0xbd3af235, 0x2ad7d2bb, 0xeb86d391]

def md5ST : List Nat :=
  [7, 12, 17, 22, 7, 12, 17, 22, 7, 12, 17, 22, 7, 12, 17, 22,
   5, 9, 14, 20, 5, 9, 14, 20, 5, 9, 14, 20, 5, 9, 14, 20,
   4, 11, 16, 23, 4, 11, 16, 23, 4, 11, 16, 23, 4, 11, 16, 23,
   6, 10, 15, 21, 6, 10, 15, 21, 6, 10, 15, 21, 6, 10, 15, 21]

structure MD5State where
  a : Nat
  b : Nat
  c : Nat
  d : Nat

def md5Mix (st : MD5State) (i : Nat) (mg : Nat) : MD5State :=
  let f :=
    if i < 16 then (st.b &&& st.c) ||| ((st.b ^^^ 0xffffffff) &&& st.d)
    else if i < 32 then (st.d &&& st.b) ||| ((st.d ^^^ 0xffffffff) &&& st.c)
    else if i < 48 then st.b ^^^ st.c ^^^ st.d
    else st.c ^^^ (st.b ||| (st.d ^^^ 0xffffffff))
  let f2 := u32 (f + st.a + md5KT.getD i 0 + mg)
  ⟨st.d, u32 (st.b + rotl32 f2 (md5ST.getD i 0)), st.b, st.c⟩

def wordAt (block : List Nat) (j : Nat) : Nat :=
  block.getD (4 * j) 0 + 256 * block.getD (4 * j + 1) 0 +
    65536 * block.getD (4 * j + 2) 0 + 16777216 * block.getD (4 * j + 3) 0

def md5Round (block : List Nat) (st : MD5State) (i : Nat) : MD5State :=
  let g :=
    if i < 16 then i
    else if i < 32 then (5 * i + 1) % 16
    else if i < 48 then (3 * i + 5) % 16
    else (7 * i) % 16
  md5Mix st i (wordAt block g)

def md5Block (st : MD5State) (block : List Nat) : MD5State :=
  let st2 := (List.range 64).foldl (md5Round block) st
  ⟨u32 (st.a + st2.a), u32 (st.b + st2.b), u32 (st.c + st2.c), u32 (st.d + st2.d)⟩

def md5Blocks (st : MD5State) (bytes : List Nat) : MD5State :=
  (List.range (bytes.length / 64)).foldl
    (fun s i => md5Block s ((bytes.drop (64 * i)).take 64)) st

def le64Bytes (n : Nat) : List Nat :=
  [n % 256, n / 256 % 256, n / 65536 % 256, n / 16777216 % 256,
   n / 4294967296 % 256, n / 1099511627776 % 256,
   n / 281474976710656 % 256, n / 72057594037927936 % 256]

def le32Bytes (n : Nat) : List Nat :=
  [n % 256, n / 256 % 256, n / 65536 % 256, n / 16777216 % 256]

def md5Pad (msg : List Nat) : List Nat :=
  msg ++ [128] ++ List.replicate ((119 - msg.length % 64) % 64) 0 ++
    le64Bytes ((8 * msg.length) % 18446744073709551616)

def md5 (msg : List Nat) : List Nat :=
  let st := md5Blocks ⟨0x67452301, 0xefcdab89, 0x98badcfe, 0x10325476⟩ (md5Pad msg)
  le32Bytes st.a ++ le32Bytes st.b ++ le32Bytes st.c ++ le32Bytes st.d

/-! ## bytes.Compare -/

def bytesCompare : List Nat → List Nat → Int
  | [], [] => 0
  | [], _ :: _ => -1
  | _ :: _, [] => 1
  | a :: as, b :: bs => if a < b then -1 else if b < a then 1 else bytesCompare as bs

/-- bLe a b means a is at most b in the unsigned-bytewise lexicographic order
used by bytes.Compare. -/
def bLe (a b : List Nat) : Prop := bytesCompare a b ≠ 1

instance (a b : List Nat) : Decidable (bLe a b) :=
  inferInstanceAs (Decidable (bytesCompare a b ≠ 1))

/-! ## base64.StdEncoding (used by key2path) -/

def b64Char (i : Nat) : Nat :=
  if i < 26 then 65 + i
  else if i < 52 then 97 + (i - 26)
  else if i < 62 then 48 + (i - 52)
  else if i = 62 then 43
  else 47

def b64encode : List Nat → List Nat
  | [] => []
  | [a] => [b64Char (a / 4), b64Char (a % 4 * 16), 61, 61]
  | [a, b] => [b64Char (a / 4), b64Char (a % 4 * 16 + b / 16), b64Char (b % 16 * 4), 61]
  | a :: b :: c :: rest =>
    b64Char (a / 4) :: b64Char (a % 4 * 16 + b / 16) ::
      b64Char (b % 16 * 4 + c / 64) :: b64Char (c % 64) :: b64encode rest

def b64DecChar (c : Nat) : Option Nat :=
  if 65 ≤ c ∧ c ≤ 90 then some (c - 65)
  else if 97 ≤ c ∧ c ≤ 122 then some (26 + (c - 97))
  else if 48 ≤ c ∧ c ≤ 57 then some (52 + (c - 48))
  else if c = 43 then some 62
  else if c = 47 then some 63
  else none

def b64decode : List Nat → Option (List Nat)
  | [] => some []
  | c1 :: c2 :: c3 :: c4 :: rest =>
    match b64DecChar c1, b64DecChar c2 with
    | some s1, some s2 =>
      if c3 = 61 then
        if rest = [] ∧ c4 = 61 then some [s1 * 4 + s2 / 16] else none
      else
        match b64DecChar c3 with
        | some s3 =>
          if c4 = 61 then
            if rest = [] then some [s1 * 4 + s2 / 16, s2 % 16 * 16 + s3 / 4] else none
          else
            match b64DecChar c4, b64decode rest with
            | some s4, some ds =>
              some ((s1 * 4 + s2 / 16) :: (s2 % 16 * 16 + s3 / 4) :: (s3 % 4 * 64 + s4) :: ds)
            | _, _ => none
        | none => none
    | _, _ => none
  | _ => none

/-! ## key2path and key2volume (src/lib.go) -/

def hexDigit (n : Nat) : Nat := if n < 10 then 48 + n else 87 + n

def hex2 (b : Nat) : List Nat := [hexDigit (b / 16), hexDigit (b % 16)]

def key2path (key : List Nat) : List Nat :=
  let mkey := md5 key
  [47] ++ hex2 (mkey.getD 0 0) ++ [47] ++ hex2 (mkey.getD 1 0) ++ [47] ++ b64encode key

def k2vStep (key : List Nat) (acc : Option (List Nat) × List Nat) (v : List Nat) :
    Option (List Nat) × List Nat :=
  let score := md5 (key ++ v)
  match acc.1 with
  | none => (some score, v)
  | some best => if bytesCompare best score = -1 then (some score, v) else acc

def key2volume (key : List Nat) (volumes : List (List Nat)) : List Nat :=
  (volumes.foldl (k2vStep key) (none, [])).2

/-! ## A concrete md5 collision: two distinct 128-byte messages with equal digest -/

def collisionV1 : List Nat :=
  [0xd1, 0x31, 0xdd, 0x02, 0xc5, 0xe6, 0xee, 0xc4,
   0x69, 0x3d, 0x9a, 0x06, 0x98, 0xaf, 0xf9, 0x5c,
   0x2f, 0xca, 0xb5, 0x87, 0x12, 0x46, 0x7e, 0xab,
   0x40, 0x04, 0x58, 0x3e, 0xb8, 0xfb, 0x7f, 0x89,
   0x55, 0xad, 0x34, 0x06, 0x09, 0xf4, 0xb3, 0x02,
   0x83, 0xe4, 0x88, 0x83, 0x25, 0x71, 0x41, 0x5a,
   0x08, 0x51, 0x25, 0xe8, 0xf7, 0xcd, 0xc9, 0x9f,
   0xd9, 0x1d, 0xbd, 0xf2, 0x80, 0x37, 0x3c, 0x5b,
   0xd8, 0x82, 0x3e, 0x31, 0x56, 0x34, 0x8f, 0x5b,
   0xae, 0x6d, 0xac, 0xd4, 0x36, 0xc9, 0x19, 0xc6,
   0xdd, 0x53, 0xe2, 0xb4, 0x87, 0xda, 0x03, 0xfd,
   0x02, 0x39, 0x63, 0x06, 0xd2, 0x48, 0xcd, 0xa0,
   0xe9, 0x9f, 0x33, 0x42, 0x0f, 0x57, 0x7e, 0xe8,
   0xce, 0x54, 0xb6, 0x70, 0x80, 0xa8, 0x0d, 0x1e,
   0xc6, 0x98, 0x21, 0xbc, 0xb6, 0xa8, 0x83, 0x93,
   0x96, 0xf9, 0x65, 0x2b, 0x6f, 0xf7, 0x2a, 0x70]

def collisionV2 : List Nat :=
  [0xd1, 0x31, 0xdd, 0x02, 0xc5, 0xe6, 0xee, 0xc4,
   0x69, 0x3d, 0x9a, 0x06, 0x98, 0xaf, 0xf9, 0x5c,
   0x2f, 0xca, 0xb5, 0x07, 0x12, 0x46, 0x7e, 0xab,
   0x40, 0x04, 0x58, 0x3e, 0xb8, 0xfb, 0x7f, 0x89,
   0x55, 0xad, 0x34, 0x06, 0x09, 0xf4, 0xb3, 0x02,
   0x83, 0xe4, 0x88, 0x83, 0x25, 0xf1, 0x41, 0x5a,
   0x08, 0x51, 0x25, 0xe8, 0xf7, 0xcd, 0xc9, 0x9f,
   0xd9, 0x1d, 0xbd, 0x72, 0x80, 0x37, 0x3c, 0x5b,
   0xd8, 0x82, 0x3e, 0x31, 0x56, 0x34, 0x8f, 0x5b,
   0xae, 0x6d, 0xac, 0xd4, 0x36, 0xc9, 0x19, 0xc6,
   0xdd, 0x53, 0xe2, 0x34, 0x87, 0xda, 0x03, 0xfd,
   0x02, 0x39, 0x63, 0x06, 0xd2, 0x48, 0xcd, 0xa0,
   0xe9, 0x9f, 0x33, 0x42, 0x0f, 0x57, 0x7e, 0xe8,
   0xce, 0x54, 0xb6, 0x70, 0x80, 0x28, 0x0d, 0x1e,
   0xc6, 0x98, 0x21, 0xbc, 0xb6, 0xa8, 0x83, 0x93,
   0x96, 0xf9, 0x65, 0xab, 0x6f, 0xf7, 0x2a, 0x70]

/-! ## The master server (src/server.go) -/

inductive Method
  | get
  | head
  | put
  | delete
deriving DecidableEq

structure Request where
  method : Method
  path : List Nat
  rawQuery : List Nat
  contentLength : Int
deriving DecidableEq

/-- The metadata store content: an association list from keys to volume names,
standing for the leveldb key space. -/
abbrev Db := List (List Nat × List Nat)

def dbLookup : Db → List Nat → Option (List Nat)
  | [], _ => none
  | (k2, v) :: rest, k => if k2 = k then some v else dbLookup rest k

def dbPut : Db → List Nat → List Nat → Db
  | [], k, v => [(k, v)]
  | (k2, v2) :: rest, k, v => if k2 = k then (k, v) :: rest else (k2, v2) :: dbPut rest k v

def dbErase : Db → List Nat → Db
  | [], _ => []
  | (k2, v2) :: rest, k => if k2 = k then dbErase rest k else (k2, v2) :: dbErase rest k

/-- Outcome of a leveldb Get as observed by server.go: a value, the dedicated
ErrNotFound error, or any other error (in which case the returned slice is nil,
that is, the empty byte string). -/
inductive GetRes
  | found (v : List Nat)
  | missing
  | fault
deriving DecidableEq

def dbGet (flt : Bool) (db : Db) (k : List Nat) : GetRes :=
  if flt then GetRes.fault
  else
    match dbLookup db k with
    | some v => GetRes.found v
    | none => GetRes.missing

/-- Fault and remote-outcome injection for one request: whether each leveldb
call errors, and whether each remote volume call returns a conforming status. -/
structure Faults where
  getFault : Bool
  putFault : Bool
  deleteFault : Bool
  remotePutOk : Bool
  remoteDeleteOk : Bool
deriving DecidableEq

/-- App.LockKey: under the table mutex, fail if the key is present, otherwise
insert it and succeed. -/
def lockKey (locks : List (List Nat)) (k : List Nat) : Bool × List (List Nat) :=
  if k ∈ locks then (false, locks) else (true, k :: locks)

/-- App.UnlockKey: under the table mutex, remove the key. -/
def unlockKey (locks : List (List Nat)) (k : List Nat) : List (List Nat) :=
  match locks with
  | [] => []
  | k2 :: rest => if k2 = k then unlockKey rest k else k2 :: unlockKey rest k

inductive RemoteCall
  | rput (url : List Nat) (len : Int)
  | rdel (url : List Nat)
deriving DecidableEq

/-- Observable outcome of one request: status code, successor metadata store,
lock table after the handler returns (the deferred unlock included), remote
calls issued, Location header, whether a Content-Length zero header was set,
and whether the placement-drift advisory was printed. -/
structure HResult where
  status : Nat
  db : Db
  locks : List (List Nat)
  calls : List RemoteCall
  location : Option (List Nat)
  zeroLen : Bool
  advisory : Bool
deriving DecidableEq

/-- The byte string http with the scheme separator, as in the Sprintf calls. -/
def httpStr : List Nat := [104, 116, 116, 112, 58, 47, 47]

/-- The byte string of the list query modifier. -/
def listStr : List Nat := [108, 105, 115, 116]

/-- GET and HEAD with an existing Get outcome: redirect at the stored volume,
printing the advisory when the stored volume differs from the current
placement.  A non-ErrNotFound Get error leaves a nil slice, hence an empty
volume name. -/
def getFound (vols : List (List Nat)) (db : Db) (locks : List (List Nat))
    (key volume : List Nat) : HResult :=
  ⟨302, db, locks, [], some (httpStr ++ volume ++ key2path key), true,
    decide (volume ≠ key2volume key vols)⟩

def getHandler (vols : List (List Nat)) (f : Faults) (db : Db)
    (locks : List (List Nat)) (key : List Nat) : HResult :=
  match dbGet f.getFault db key with
  | GetRes.missing => ⟨404, db, locks, [], none, true, false⟩
  | GetRes.found v => getFound vols db locks key v
  | GetRes.fault => getFound vols db locks key []

def putHandler (vols : List (List Nat)) (f : Faults) (db : Db)
    (locks : List (List Nat)) (key : List Nat) (cl : Int) : HResult :=
  if cl = 0 then ⟨411, db, locks, [], none, false, false⟩
  else
    match dbGet f.getFault db key with
    | GetRes.missing =>
      let kvolume := key2volume key vols
      let remote := httpStr ++ kvolume ++ key2path key
      if f.remotePutOk = false then ⟨500, db, locks, [RemoteCall.rput remote cl], none, false, false⟩
      else if f.putFault then ⟨500, db, locks, [RemoteCall.rput remote cl], none, false, false⟩
      else ⟨201, dbPut db key kvolume, locks, [RemoteCall.rput remote cl], none, false, false⟩
    | _ => ⟨403, db, locks, [], none, false, false⟩

def deleteHandler (f : Faults) (db : Db) (locks : List (List Nat))
    (key : List Nat) : HResult :=
  match dbGet f.getFault db key with
  | GetRes.missing => ⟨404, db, locks, [], none, false, false⟩
  | res =>
    let data := match res with | GetRes.found v => v | _ => []
    let db2 := if f.deleteFault then db else dbErase db key
    let remote := httpStr ++ data ++ key2path key
    if f.remoteDeleteOk then ⟨204, db2, locks, [RemoteCall.rdel remote], none, false, false⟩
    else ⟨500, db2, locks, [RemoteCall.rdel remote], none, false, false⟩

/-- App.ServeHTTP.  Query-modified requests go to the list handler; PUT and
DELETE first take the per-key lock, answering 409 without side effect when it
is already held.  The lock table reported in the result is the table after the
deferred unlock, hence equal to the incoming one for completed requests. -/
def serveHTTP (vols : List (List Nat)) (f : Faults) (db : Db)
    (locks : List (List Nat)) (r : Request) : HResult :=
  let key := r.path
  if r.rawQuery ≠ [] then
    if r.method ≠ Method.get then ⟨403, db, locks, [], none, false, false⟩
    else if r.rawQuery = listStr then
      if ((db.filter (fun p => key.isPrefixOf p.1)).map Prod.fst).length > 1000000 then
        ⟨413, db, locks, [], none, false, false⟩
      else ⟨200, db, locks, [], none, false, false⟩
    else ⟨403, db, locks, [], none, false, false⟩
  else if (r.method = Method.put ∨ r.method = Method.delete) ∧ key ∈ locks then
    ⟨409, db, locks, [], none, false, false⟩
  else
    match r.method with
    | Method.get => getHandler vols f db locks key
    | Method.head => getHandler vols f db locks key
    | Method.put => putHandler vols f db locks key r.contentLength
    | Method.delete => deleteHandler f db locks key

/-! ## Theorems -/

/-- Sanity: the embedded md5 agrees with the RFC 1321 test vector for the
empty message. -/
theorem md5_empty_vector :
    md5 [] = [0xd4, 0x1d, 0x8c, 0xd9, 0x8f, 0x00, 0xb2, 0x04,
              0xe9, 0x80, 0x09, 0x98, 0xec, 0xf8, 0x42, 0x7e] := by decide

/-- Sanity: the embedded md5 agrees with the RFC 1321 test vector for the
three-byte message abc. -/
theorem md5_abc_vector :
    md5 [97, 98, 99] = [0x90, 0x01, 0x50, 0x98, 0x3c, 0xd2, 0x4f, 0xb0,
                        0xd6, 0x96, 0x3f, 0x7d, 0x28, 0xe1, 0x7f, 0x72] := by decide

theorem bytesCompare_trichotomy (a : List Nat) : ∀ b : List Nat,
    bytesCompare a b = -1 ∨ bytesCompare a b = 0 ∨ bytesCompare a b = 1 := by
  induction a with
  | nil => intro b; cases b <;> simp [bytesCompare]
  | cons x as ih =>
    intro b
    cases b with
    | nil => simp [bytesCompare]
    | cons y bs =>
      by_cases hxy : x < y
      · simp [bytesCompare, hxy]
      · by_cases hyx : y < x
        · simp [bytesCompare, hxy, hyx]
        · simpa [bytesCompare, hxy, hyx] using ih bs

theorem bytesCompare_self (a : List Nat) : bytesCompare a a = 0 := by
  induction a with
  | nil => rfl
  | cons x as ih => simp [bytesCompare, ih]

theorem bytesCompare_swap (a : List Nat) : ∀ b : List Nat,
    bytesCompare a b = -bytesCompare b a := by
  induction a with
  | nil => intro b; cases b <;> simp [bytesCompare]
  | cons x as ih =>
    intro b
    cases b with
    | nil => simp [bytesCompare]
    | cons y bs =>
      by_cases hxy : x < y
      · have hyx : ¬ y < x := by omega
        simp [bytesCompare, hxy, hyx]
      · by_cases hyx : y < x
        · simp [bytesCompare, hxy, hyx]
        · simpa [bytesCompare, hxy, hyx] using ih bs

theorem bytesCompare_eq_zero (a : List Nat) : ∀ b : List Nat,
    bytesCompare a b = 0 → a = b := by
  induction a with
  | nil =>
    intro b h
    cases b with
    | nil => rfl
    | cons y bs => simp [bytesCompare] at h
  | cons x as ih =>
    intro b h
    cases b with
    | nil => simp [bytesCompare] at h
    | cons y bs =>
      by_cases hxy : x < y
      · simp [bytesCompare, hxy] at h
      · by_cases hyx : y < x
        · simp [bytesCompare, hxy, hyx] at h
        · have hx : x = y := by omega
          have := ih bs (by simpa [bytesCompare, hxy, hyx] using h)
          simp [hx, this]

theorem bLe_refl (a : List Nat) : bLe a a := by
  simp [bLe, bytesCompare_self]

theorem bLe_of_not_lt {a b : List Nat} (h : bytesCompare a b ≠ -1) : bLe b a := by
  intro hc
  rw [bytesCompare_swap] at h
  omega

theorem bLe_trans (a : List Nat) : ∀ b c : List Nat, bLe a b → bLe b c → bLe a c := by
  induction a with
  | nil =>
    intro b c _ _
    cases c <;> simp [bLe, bytesCompare]
  | cons x as ih =>
    intro b c hab hbc
    cases b with
    | nil => simp [bLe, bytesCompare] at hab
    | cons y bs =>
      cases c with
      | nil => simp [bLe, bytesCompare] at hbc
      | cons z cs =>
        by_cases hxy : x < y
        · by_cases hyz : y < z
          · have hxz : x < z := by omega
            simp [bLe, bytesCompare, hxz]
          · by_cases hzy : z < y
            · simp [bLe, bytesCompare, hyz, hzy] at hbc
            · have hxz : x < z := by omega
              simp [bLe, bytesCompare, hxz]
        · by_cases hyx : y < x
          · simp [bLe, bytesCompare, hxy, hyx] at hab
          · by_cases hyz : y < z
            · have hxz : x < z := by omega
              simp [bLe, bytesCompare, hxz]
            · by_cases hzy : z < y
              · simp [bLe, bytesCompare, hyz, hzy] at hbc
              · have hxz : ¬ x < z := by omega
                have hzx : ¬ z < x := by omega
                have h1 : bLe as bs := by simpa [bLe, bytesCompare, hxy, hyx] using hab
                have h2 : bLe bs cs := by simpa [bLe, bytesCompare, hyz, hzy] using hbc
                simpa [bLe, bytesCompare, hxz, hzx] using ih bs cs h1 h2

theorem bLe_antisymm {a b : List Nat} (h1 : bLe a b) (h2 : bLe b a) : a = b := by
  have hs := bytesCompare_swap a b
  rcases bytesCompare_trichotomy a b with h | h | h
  · exact absurd (by rw [hs] at h; omega) h2
  · exact bytesCompare_eq_zero a b h
  · exact absurd h h1

/-- Invariant of the Go loop in key2volume: starting from an accumulator that
scores its current return value, the fold keeps the accumulator score equal to
the score of the returned volume, only moves to members of the remaining list,
and never decreases the score, which ends up above the score of every member
of the remaining list. -/
theorem k2v_fold (key : List Nat) : ∀ (l : List (List Nat)) (best r : List Nat),
    best = md5 (key ++ r) →
    (l.foldl (k2vStep key) (some best, r)).1
        = some (md5 (key ++ (l.foldl (k2vStep key) (some best, r)).2))
    ∧ ((l.foldl (k2vStep key) (some best, r)).2 = r
        ∨ (l.foldl (k2vStep key) (some best, r)).2 ∈ l)
    ∧ bLe best (md5 (key ++ (l.foldl (k2vStep key) (some best, r)).2))
    ∧ ∀ v ∈ l, bLe (md5 (key ++ v)) (md5 (key ++ (l.foldl (k2vStep key) (some best, r)).2)) := by
  intro l
  induction l with
  | nil =>
    intro best r hb
    refine ⟨by simpa using hb, Or.inl rfl, ?_, by simp⟩
    simpa [← hb] using bLe_refl best
  | cons v vs ih =>
    intro best r hb
    by_cases hlt : bytesCompare best (md5 (key ++ v)) = -1
    · have hstep : k2vStep key (some best, r) v = (some (md5 (key ++ v)), v) := by
        simp [k2vStep, hlt]
      have res := ih (md5 (key ++ v)) v rfl
      have hbv : bLe best (md5 (key ++ v)) := by
        intro hc; rw [hlt] at hc; omega
      rw [List.foldl_cons, hstep]
      refine ⟨res.1, ?_, ?_, ?_⟩
      · rcases res.2.1 with h | h
        · exact Or.inr (by simp [h])
        · exact Or.inr (by simp [h])
      · exact bLe_trans best _ _ hbv res.2.2.1
      · intro w hw
        rcases List.mem_cons.mp hw with h | h
        · subst h; exact res.2.2.1
        · exact res.2.2.2 w h
    · have hstep : k2vStep key (some best, r) v = (some best, r) := by
        simp [k2vStep, hlt]
      have res := ih best r hb
      have hvb : bLe (md5 (key ++ v)) best := bLe_of_not_lt hlt
      rw [List.foldl_cons, hstep]
      refine ⟨res.1, ?_, res.2.2.1, ?_⟩
      · rcases res.2.1 with h | h
        · exact Or.inl h
        · exact Or.inr (by simp [h])
      · intro w hw
        rcases List.mem_cons.mp hw with h | h
        · subst h; exact bLe_trans _ best _ hvb res.2.2.1
        · exact res.2.2.2 w h

/-- The returned volume is a pool member and its score is maximal among the
scores of all pool members. -/
theorem key2volume_mem_max (key : List Nat) (vols : List (List Nat)) (h : vols ≠ []) :
    key2volume key vols ∈ vols
    ∧ ∀ v ∈ vols, bLe (md5 (key ++ v)) (md5 (key ++ key2volume key vols)) := by
  match vols with
  | v :: vs =>
    have hstep : k2vStep key (none, []) v = (some (md5 (key ++ v)), v) := by
      simp [k2vStep]
    have res := k2v_fold key vs (md5 (key ++ v)) v rfl
    unfold key2volume
    rw [List.foldl_cons, hstep]
    refine ⟨?_, ?_⟩
    · rcases res.2.1 with h2 | h2
      · rw [h2]; exact List.mem_cons_self v vs
      · exact List.mem_cons_of_mem v h2
    · intro w hw
      rcases List.mem_cons.mp hw with h2 | h2
      · subst h2; exact res.2.2.1
      · exact res.2.2.2 w h2

theorem b64DecChar_b64Char : ∀ i < 64, b64DecChar (b64Char i) = some i := by decide

theorem b64Char_ne_61 (i : Nat) : b64Char i ≠ 61 := by
  unfold b64Char
  split_ifs <;> omega

/-- Standard base64 is reversible: decoding the encoding of any byte string
gives back exactly that byte string. -/
theorem b64_roundtrip (bs : List Nat) (h : ∀ x ∈ bs, x < 256) :
    b64decode (b64encode bs) = some bs := by
  match bs with
  | [] => rfl
  | [a] =>
    have ha : a < 256 := h a (by simp)
    have d1 := b64DecChar_b64Char (a / 4) (by omega)
    have d2 := b64DecChar_b64Char (a % 4 * 16) (by omega)
    simp [b64encode, b64decode, d1, d2]
    omega
  | [a, b] =>
    have ha : a < 256 := h a (by simp)
    have hb : b < 256 := h b (by simp)
    have d1 := b64DecChar_b64Char (a / 4) (by omega)
    have d2 := b64DecChar_b64Char (a % 4 * 16 + b / 16) (by omega)
    have d3 := b64DecChar_b64Char (b % 16 * 4) (by omega)
    have n3 := b64Char_ne_61 (b % 16 * 4)
    simp [b64encode, b64decode, d1, d2, d3, n3]
    omega
  | a :: b :: c :: rest =>
    have ha : a < 256 := h a (by simp)
    have hb : b < 256 := h b (by simp)
    have hc : c < 256 := h c (by simp)
    have ih := b64_roundtrip rest (fun x hx => h x (by simp [hx]))
    have d1 := b64DecChar_b64Char (a / 4) (by omega)
    have d2 := b64DecChar_b64Char (a % 4 * 16 + b / 16) (by omega)
    have d3 := b64DecChar_b64Char (b % 16 * 4 + c / 64) (by omega)
    have d4 := b64DecChar_b64Char (c % 64) (by omega)
    have n3 := b64Char_ne_61 (b % 16 * 4 + c / 64)
    have n4 := b64Char_ne_61 (c % 64)
    simp [b64encode, b64decode, d1, d2, d3, d4, n3, n4, ih]
    omega

/-- C1: for every key and every non-empty backend pool, key2volume returns a
member of the pool whose md5 digest of the key concatenated with that member
is lexicographically largest, as an unsigned byte sequence, among the digests
of all pool members.  Determinism of repeated calls is definitional here:
key2volume is a pure function of the key and the pool. -/
theorem C1_placement_max (key : List Nat) (vols : List (List Nat)) (h : vols ≠ []) :
    key2volume key vols ∈ vols
    ∧ ∀ v ∈ vols, bLe (md5 (key ++ v)) (md5 (key ++ key2volume key vols)) :=
  key2volume_mem_max key vols h

theorem C1_witness :
    key2volume [97] [[98], [99]] ∈ [[98], [99]]
    ∧ ∀ v ∈ [[98], [99]], bLe (md5 ([97] ++ v)) (md5 ([97] ++ key2volume [97] [[98], [99]])) :=
  C1_placement_max [97] [[98], [99]] (by decide)

/-- Any pool member whose score dominates all scores is the returned volume,
provided distinct members never share a score for this key. -/
theorem key2volume_unique (key : List Nat) (vols : List (List Nat)) (x : List Nat)
    (hx : x ∈ vols) (hmax : ∀ v ∈ vols, bLe (md5 (key ++ v)) (md5 (key ++ x)))
    (hnt : ∀ v ∈ vols, ∀ w ∈ vols, md5 (key ++ v) = md5 (key ++ w) → v = w) :
    x = key2volume key vols := by
  have hne : vols ≠ [] := by rintro rfl; simp at hx
  obtain ⟨hmem, hm⟩ := key2volume_mem_max key vols hne
  exact hnt x hx _ hmem (bLe_antisymm (hm x hx) (hmax _ hmem))

/-- Sanity: the two embedded 128-byte messages are distinct yet share their
md5 digest (the classical identical-prefix collision). -/
theorem md5_collision_pair :
    md5 collisionV1 = md5 collisionV2 ∧ collisionV1 ≠ collisionV2 := by
  constructor <;> decide

/-- C3 (amended): the placement depends only on the key and the set of pool
members, not on their order, provided distinct pool members have distinct
digests for the key; an exact digest tie (only reachable through an md5
collision) breaks order independence, because the loop keeps the earlier of
two tied members. -/
theorem C3_perm_of_no_tie (key : List Nat) (l l2 : List (List Nat))
    (hp : l.Perm l2)
    (hnt : ∀ v ∈ l, ∀ w ∈ l, md5 (key ++ v) = md5 (key ++ w) → v = w) :
    key2volume key l2 = key2volume key l := by
  rcases eq_or_ne l [] with rfl | hne
  · rw [hp.symm.eq_nil]
  · have hne2 : l2 ≠ [] := fun h2 => hne (h2 ▸ hp).eq_nil
    obtain ⟨hmem2, hmax2⟩ := key2volume_mem_max key l2 hne2
    exact key2volume_unique key l _ (hp.mem_iff.mpr hmem2)
      (fun v hv => hmax2 v (hp.mem_iff.mp hv)) hnt

theorem C3_witness :
    key2volume [97] [[99], [98]] = key2volume [97] [[98], [99]] :=
  C3_perm_of_no_tie [97] [[98], [99]] [[99], [98]]
    (List.Perm.swap [99] [98] []) (by decide)

/-- C3 is false exactly as stated: over the pool made of the two colliding
messages, the two orders of the same two-member pool give different placements
for the empty key, because the scores tie and the loop keeps the first
maximum. -/
theorem C3_counterexample :
    ([collisionV1, collisionV2]).Perm [collisionV2, collisionV1]
    ∧ key2volume [] [collisionV1, collisionV2]
        ≠ key2volume [] [collisionV2, collisionV1] := by
  constructor
  · exact List.Perm.swap collisionV2 collisionV1 []
  · decide

/-- C4 is false as stated in its final clause: the standard base64 alphabet
contains the path separator, so the final path component can contain it and
the path can have more than three slash-separated segments.  For the two-byte
key 255, 255 the encoding starts with two slashes and the whole path contains
five slashes instead of three. -/
theorem C4_counterexample :
    47 ∈ b64encode [255, 255] ∧ (key2path [255, 255]).count 47 = 5 := by
  constructor <;> decide

/-- C4 (amended): the content-addressed path is the slash, the two-hex-digit
encoding of digest byte zero, a slash, the two-hex-digit encoding of digest
byte one, a slash, and the standard base64 encoding of the raw key, which
decodes back to exactly the original key bytes; the digest has 16 bytes and
each hex segment has two characters, but the base64 part may itself contain
the path separator. -/
theorem C4_path_shape (key : List Nat) (h : ∀ x ∈ key, x < 256) :
    key2path key
      = [47] ++ hex2 ((md5 key).getD 0 0) ++ [47] ++ hex2 ((md5 key).getD 1 0)
          ++ [47] ++ b64encode key
    ∧ (md5 key).length = 16
    ∧ (hex2 ((md5 key).getD 0 0)).length = 2
    ∧ (hex2 ((md5 key).getD 1 0)).length = 2
    ∧ b64decode (b64encode key) = some key := by
  refine ⟨rfl, ?_, rfl, rfl, b64_roundtrip key h⟩
  simp [md5, le32Bytes]

theorem C4_witness :
    key2path [97]
      = [47] ++ hex2 ((md5 [97]).getD 0 0) ++ [47] ++ hex2 ((md5 [97]).getD 1 0)
          ++ [47] ++ b64encode [97]
    ∧ (md5 [97]).length = 16
    ∧ (hex2 ((md5 [97]).getD 0 0)).length = 2
    ∧ (hex2 ((md5 [97]).getD 1 0)).length = 2
    ∧ b64decode (b64encode [97]) = some [97] :=
  C4_path_shape [97] (by decide)

theorem dbLookup_dbErase (db : Db) (k : List Nat) : dbLookup (dbErase db k) k = none := by
  induction db with
  | nil => rfl
  | cons p rest ih =>
    obtain ⟨k2, v2⟩ := p
    by_cases hk : k2 = k
    · simp [dbErase, hk, ih]
    · simp [dbErase, dbLookup, hk, ih]

/-- C2: the lock table serializes create and delete on one key: acquiring the
free lock succeeds and records the key, after which any further acquisition
fails without changing the table, so at most one request holds a key at any
instant.  Consequently, racing a create against a create that already holds
the key lock gives exactly one 201 and one 409: the holder completes and
writes the single assignment record; the other request, whatever store state
it observes while the first is in flight, answers 409 and performs no store
change and no remote call. -/
theorem C2_create_race (vols : List (List Nat)) (f : Faults) (db : Db)
    (locks : List (List Nat)) (key : List Nat) (cl : Int)
    (hl : key ∉ locks) (hdb : dbLookup db key = none) (hcl : cl ≠ 0)
    (hg : f.getFault = false) (hp : f.putFault = false) (hr : f.remotePutOk = true) :
    (lockKey locks key).1 = true
    ∧ key ∈ (lockKey locks key).2
    ∧ (lockKey (lockKey locks key).2 key).1 = false
    ∧ (lockKey (lockKey locks key).2 key).2 = (lockKey locks key).2
    ∧ (serveHTTP vols f db locks (Request.mk Method.put key [] cl)).status = 201
    ∧ (serveHTTP vols f db locks (Request.mk Method.put key [] cl)).db
        = dbPut db key (key2volume key vols)
    ∧ ∀ (db2 : Db) (cl2 : Int),
        (serveHTTP vols f db2 ((lockKey locks key).2)
            (Request.mk Method.put key [] cl2)).status = 409
        ∧ (serveHTTP vols f db2 ((lockKey locks key).2)
            (Request.mk Method.put key [] cl2)).db = db2
        ∧ (serveHTTP vols f db2 ((lockKey locks key).2)
            (Request.mk Method.put key [] cl2)).calls = [] := by
  have hlock : lockKey locks key = (true, key :: locks) := by simp [lockKey, hl]
  refine ⟨by simp [hlock], by simp [hlock], by rw [hlock]; simp [lockKey],
    by rw [hlock]; simp [lockKey], ?_, ?_, ?_⟩
  · simp [serveHTTP, putHandler, dbGet, hl, hdb, hcl, hg, hp, hr]
  · simp [serveHTTP, putHandler, dbGet, hl, hdb, hcl, hg, hp, hr]
  · intro db2 cl2
    refine ⟨?_, ?_, ?_⟩ <;> simp [serveHTTP, hlock]

theorem C2_witness :
    (lockKey [] [107]).1 = true
    ∧ [107] ∈ (lockKey [] [107]).2
    ∧ (lockKey (lockKey [] [107]).2 [107]).1 = false
    ∧ (lockKey (lockKey [] [107]).2 [107]).2 = (lockKey [] [107]).2
    ∧ (serveHTTP [[118]] (Faults.mk false false false true true) [] []
        (Request.mk Method.put [107] [] 1)).status = 201
    ∧ (serveHTTP [[118]] (Faults.mk false false false true true) [] []
        (Request.mk Method.put [107] [] 1)).db
        = dbPut [] [107] (key2volume [107] [[118]])
    ∧ ∀ (db2 : Db) (cl2 : Int),
        (serveHTTP [[118]] (Faults.mk false false false true true) db2
            ((lockKey [] [107]).2) (Request.mk Method.put [107] [] cl2)).status = 409
        ∧ (serveHTTP [[118]] (Faults.mk false false false true true) db2
            ((lockKey [] [107]).2) (Request.mk Method.put [107] [] cl2)).db = db2
        ∧ (serveHTTP [[118]] (Faults.mk false false false true true) db2
            ((lockKey [] [107]).2) (Request.mk Method.put [107] [] cl2)).calls = [] :=
  C2_create_race [[118]] (Faults.mk false false false true true) [] [] [107] 1
    (by decide) (by decide) (by decide) rfl rfl rfl

/-- C5: a fetch or probe on a key whose assignment record is present answers
302 with the Location formed from the stored volume and the content-addressed
path, sets the explicit zero-length Content-Length header, leaves the store,
the lock table and the backends untouched, and prints the placement-drift
advisory exactly when the stored volume differs from the current placement —
the advisory never changes the response. -/
theorem C5_fetch_redirect (vols : List (List Nat)) (f : Faults) (db : Db)
    (locks : List (List Nat)) (key vol : List Nat) (m : Method) (cl : Int)
    (hm : m = Method.get ∨ m = Method.head)
    (hg : f.getFault = false) (hdb : dbLookup db key = some vol) :
    (serveHTTP vols f db locks (Request.mk m key [] cl)).status = 302
    ∧ (serveHTTP vols f db locks (Request.mk m key [] cl)).location
        = some (httpStr ++ vol ++ key2path key)
    ∧ (serveHTTP vols f db locks (Request.mk m key [] cl)).zeroLen = true
    ∧ (serveHTTP vols f db locks (Request.mk m key [] cl)).db = db
    ∧ (serveHTTP vols f db locks (Request.mk m key [] cl)).locks = locks
    ∧ (serveHTTP vols f db locks (Request.mk m key [] cl)).calls = []
    ∧ ((serveHTTP vols f db locks (Request.mk m key [] cl)).advisory = true
        ↔ vol ≠ key2volume key vols) := by
  rcases hm with rfl | rfl <;>
    simp [serveHTTP, getHandler, getFound, dbGet, hg, hdb]

theorem C5_witness :
    (serveHTTP [[118]] (Faults.mk false false false true true) [([107], [118])] []
        (Request.mk Method.get [107] [] 0)).status = 302
    ∧ (serveHTTP [[118]] (Faults.mk false false false true true) [([107], [118])] []
        (Request.mk Method.get [107] [] 0)).location
        = some (httpStr ++ [118] ++ key2path [107])
    ∧ (serveHTTP [[118]] (Faults.mk false false false true true) [([107], [118])] []
        (Request.mk Method.get [107] [] 0)).zeroLen = true
    ∧ (serveHTTP [[118]] (Faults.mk false false false true true) [([107], [118])] []
        (Request.mk Method.get [107] [] 0)).db = [([107], [118])]
    ∧ (serveHTTP [[118]] (Faults.mk false false false true true) [([107], [118])] []
        (Request.mk Method.get [107] [] 0)).locks = []
    ∧ (serveHTTP [[118]] (Faults.mk false false false true true) [([107], [118])] []
        (Request.mk Method.get [107] [] 0)).calls = []
    ∧ ((serveHTTP [[118]] (Faults.mk false false false true true) [([107], [118])] []
        (Request.mk Method.get [107] [] 0)).advisory = true
        ↔ [118] ≠ key2volume [107] [[118]]) :=
  C5_fetch_redirect [[118]] (Faults.mk false false false true true) [([107], [118])] []
    [107] [118] Method.get 0 (Or.inl rfl) rfl (by decide)

/-- C6 is false in its ordering clause: with the key lock already held by
another operation, a zero-length create is answered 409 conflict, not 411
length-required, because ServeHTTP acquires the lock before the PUT branch
checks the content length. -/
theorem C6_counterexample :
    (serveHTTP [] (Faults.mk false false false true true) [] [[107]]
        (Request.mk Method.put [107] [] 0)).status = 409
    ∧ (serveHTTP [] (Faults.mk false false false true true) [] [[107]]
        (Request.mk Method.put [107] [] 0)).status ≠ 411 := by
  constructor <;> decide

/-- C6 (amended): every create whose payload length is zero and whose key
lock is free is rejected with 411 regardless of the store content and the
fault pattern, leaving the store, the lock table and the backends untouched;
when the key lock is held by another operation the same request is rejected
with 409 instead, because the lock is acquired before the empty-payload
check. -/
theorem C6_empty_create (vols : List (List Nat)) (f : Faults) (db : Db)
    (locks : List (List Nat)) (key : List Nat)
    (hl : key ∉ locks) :
    (serveHTTP vols f db locks (Request.mk Method.put key [] 0)).status = 411
    ∧ (serveHTTP vols f db locks (Request.mk Method.put key [] 0)).db = db
    ∧ (serveHTTP vols f db locks (Request.mk Method.put key [] 0)).calls = []
    ∧ (serveHTTP vols f db locks (Request.mk Method.put key [] 0)).locks = locks
    ∧ ∀ locks2, key ∈ locks2 →
        (serveHTTP vols f db locks2 (Request.mk Method.put key [] 0)).status = 409
        ∧ (serveHTTP vols f db locks2 (Request.mk Method.put key [] 0)).db = db := by
  refine ⟨?_, ?_, ?_, ?_, ?_⟩
  · simp [serveHTTP, putHandler, hl]
  · simp [serveHTTP, putHandler, hl]
  · simp [serveHTTP, putHandler, hl]
  · simp [serveHTTP, putHandler, hl]
  · intro locks2 h2
    constructor <;> simp [serveHTTP, h2]

theorem C6_witness :
    (serveHTTP [] (Faults.mk false false false true true) [([107], [118])] []
        (Request.mk Method.put [107] [] 0)).status = 411
    ∧ (serveHTTP [] (Faults.mk false false false true true) [([107], [118])] []
        (Request.mk Method.put [107] [] 0)).db = [([107], [118])]
    ∧ (serveHTTP [] (Faults.mk false false false true true) [([107], [118])] []
        (Request.mk Method.put [107] [] 0)).calls = []
    ∧ (serveHTTP [] (Faults.mk false false false true true) [([107], [118])] []
        (Request.mk Method.put [107] [] 0)).locks = []
    ∧ ∀ locks2, [107] ∈ locks2 →
        (serveHTTP [] (Faults.mk false false false true true) [([107], [118])] locks2
            (Request.mk Method.put [107] [] 0)).status = 409
        ∧ (serveHTTP [] (Faults.mk false false false true true) [([107], [118])] locks2
            (Request.mk Method.put [107] [] 0)).db = [([107], [118])] :=
  C6_empty_create [] (Faults.mk false false false true true) [([107], [118])] [] [107]
    (by decide)

/-- C7: a create on a key that already has an assignment record, reached with
the lock free and a non-zero payload, is rejected 403 forbidden with no remote
call; the store and the record are unchanged, whether the leveldb read
returned the record or failed with a non-ErrNotFound error. -/
theorem C7_no_overwrite (vols : List (List Nat)) (f : Faults) (db : Db)
    (locks : List (List Nat)) (key vol : List Nat) (cl : Int)
    (hl : key ∉ locks) (hcl : cl ≠ 0) (hdb : dbLookup db key = some vol) :
    (serveHTTP vols f db locks (Request.mk Method.put key [] cl)).status = 403
    ∧ (serveHTTP vols f db locks (Request.mk Method.put key [] cl)).db = db
    ∧ (serveHTTP vols f db locks (Request.mk Method.put key [] cl)).calls = []
    ∧ dbLookup (serveHTTP vols f db locks (Request.mk Method.put key [] cl)).db key
        = some vol := by
  cases hgf : f.getFault <;>
    simp [serveHTTP, putHandler, dbGet, hl, hcl, hdb, hgf]

theorem C7_witness :
    (serveHTTP [[118]] (Faults.mk false false false true true) [([107], [118])] []
        (Request.mk Method.put [107] [] 1)).status = 403
    ∧ (serveHTTP [[118]] (Faults.mk false false false true true) [([107], [118])] []
        (Request.mk Method.put [107] [] 1)).db = [([107], [118])]
    ∧ (serveHTTP [[118]] (Faults.mk false false false true true) [([107], [118])] []
        (Request.mk Method.put [107] [] 1)).calls = []
    ∧ dbLookup (serveHTTP [[118]] (Faults.mk false false false true true) [([107], [118])] []
        (Request.mk Method.put [107] [] 1)).db [107] = some [118] :=
  C7_no_overwrite [[118]] (Faults.mk false false false true true) [([107], [118])] []
    [107] [118] 1 (by decide) (by decide) (by decide)

/-- C8: a delete on a present key (lock free, store functioning) always leaves
the store with the record erased — whether the backend delete succeeds (204)
or fails (500) — issues exactly one remote delete aimed at the stored volume,
and a subsequent fetch of the key on the resulting store answers 404. -/
theorem C8_delete_order (vols : List (List Nat)) (f : Faults) (db : Db)
    (locks : List (List Nat)) (key vol : List Nat)
    (hl : key ∉ locks) (hg : f.getFault = false) (hdf : f.deleteFault = false)
    (hdb : dbLookup db key = some vol) :
    (serveHTTP vols f db locks (Request.mk Method.delete key [] 0)).db = dbErase db key
    ∧ dbLookup (serveHTTP vols f db locks (Request.mk Method.delete key [] 0)).db key = none
    ∧ (serveHTTP vols f db locks (Request.mk Method.delete key [] 0)).calls
        = [RemoteCall.rdel (httpStr ++ vol ++ key2path key)]
    ∧ (serveHTTP vols f db locks (Request.mk Method.delete key [] 0)).status
        = (if f.remoteDeleteOk then 204 else 500)
    ∧ ∀ f2 : Faults, f2.getFault = false →
        (serveHTTP vols f2 (serveHTTP vols f db locks (Request.mk Method.delete key [] 0)).db
            locks (Request.mk Method.get key [] 0)).status = 404 := by
  have core : serveHTTP vols f db locks (Request.mk Method.delete key [] 0)
      = ⟨if f.remoteDeleteOk then 204 else 500, dbErase db key, locks,
         [RemoteCall.rdel (httpStr ++ vol ++ key2path key)], none, false, false⟩ := by
    cases hro : f.remoteDeleteOk <;>
      simp [serveHTTP, deleteHandler, dbGet, hl, hg, hdf, hdb, hro]
  rw [core]
  refine ⟨rfl, dbLookup_dbErase db key, rfl, rfl, ?_⟩
  intro f2 hg2
  simp [serveHTTP, getHandler, dbGet, hg2, dbLookup_dbErase]

theorem C8_witness :
    (serveHTTP [[118]] (Faults.mk false false false true false) [([107], [118])] []
        (Request.mk Method.delete [107] [] 0)).db = dbErase [([107], [118])] [107]
    ∧ dbLookup (serveHTTP [[118]] (Faults.mk false false false true false) [([107], [118])] []
        (Request.mk Method.delete [107] [] 0)).db [107] = none
    ∧ (serveHTTP [[118]] (Faults.mk false false false true false) [([107], [118])] []
        (Request.mk Method.delete [107] [] 0)).calls
        = [RemoteCall.rdel (httpStr ++ [118] ++ key2path [107])]
    ∧ (serveHTTP [[118]] (Faults.mk false false false true false) [([107], [118])] []
        (Request.mk Method.delete [107] [] 0)).status
        = (if (Faults.mk false false false true false : Faults).remoteDeleteOk then 204 else 500)
    ∧ ∀ f2 : Faults, f2.getFault = false →
        (serveHTTP [[118]] f2
            (serveHTTP [[118]] (Faults.mk false false false true false) [([107], [118])] []
                (Request.mk Method.delete [107] [] 0)).db []
            (Request.mk Method.get [107] [] 0)).status = 404 :=
  C8_delete_order [[118]] (Faults.mk false false false true false) [([107], [118])] []
    [107] [118] (by decide) rfl rfl (by decide)

/-- C9 is false as stated: a delete whose leveldb Delete call fails while the
backend delete succeeds is reported 204 success rather than failure, because
server.go ignores the return value of the metadata delete; the assignment
record even survives in the store. -/
theorem C9_counterexample :
    (serveHTTP [] (Faults.mk false false true true true) [([107], [118])] []
        (Request.mk Method.delete [107] [] 0)).status = 204
    ∧ (serveHTTP [] (Faults.mk false false true true true) [([107], [118])] []
        (Request.mk Method.delete [107] [] 0)).db = [([107], [118])] := by
  constructor <;> decide

/-- C9 (amended): only the metadata put inside create is reported as failure
(500, with no record written).  The other metadata-store failures do not fail
the request: a Get error other than ErrNotFound during create is rejected 403
forbidden — a client-error signal — and the result of the metadata delete
inside delete is ignored, so with a succeeding backend delete the request
reports 204 even though the record was not removed. -/
theorem C9_metadata_failures (vols : List (List Nat)) (db : Db)
    (locks : List (List Nat)) (key vol : List Nat) (cl : Int)
    (hl : key ∉ locks) (hcl : cl ≠ 0) :
    (∀ f : Faults, f.getFault = false → f.remotePutOk = true → f.putFault = true →
        dbLookup db key = none →
        (serveHTTP vols f db locks (Request.mk Method.put key [] cl)).status = 500
        ∧ (serveHTTP vols f db locks (Request.mk Method.put key [] cl)).db = db)
    ∧ (∀ f : Faults, f.getFault = true →
        (serveHTTP vols f db locks (Request.mk Method.put key [] cl)).status = 403)
    ∧ (∀ f : Faults, f.getFault = false → f.deleteFault = true → f.remoteDeleteOk = true →
        dbLookup db key = some vol →
        (serveHTTP vols f db locks (Request.mk Method.delete key [] 0)).status = 204
        ∧ (serveHTTP vols f db locks (Request.mk Method.delete key [] 0)).db = db) := by
  refine ⟨?_, ?_, ?_⟩
  · intro f hg hr hp hdb
    constructor <;> simp [serveHTTP, putHandler, dbGet, hl, hcl, hg, hr, hp, hdb]
  · intro f hg
    simp [serveHTTP, putHandler, dbGet, hl, hcl, hg]
  · intro f hg hdf hro hdb
    constructor <;> simp [serveHTTP, deleteHandler, dbGet, hl, hg, hdf, hro, hdb]

theorem C9_witness :
    (∀ f : Faults, f.getFault = false → f.remotePutOk = true → f.putFault = true →
        dbLookup [([107], [118])] [107] = none →
        (serveHTTP [] f [([107], [118])] []
            (Request.mk Method.put [107] [] 1)).status = 500
        ∧ (serveHTTP [] f [([107], [118])] []
            (Request.mk Method.put [107] [] 1)).db = [([107], [118])])
    ∧ (∀ f : Faults, f.getFault = true →
        (serveHTTP [] f [([107], [118])] []
            (Request.mk Method.put [107] [] 1)).status = 403)
    ∧ (∀ f : Faults, f.getFault = false → f.deleteFault = true → f.remoteDeleteOk = true →
        dbLookup [([107], [118])] [107] = some [118] →
        (serveHTTP [] f [([107], [118])] []
            (Request.mk Method.delete [107] [] 0)).status = 204
        ∧ (serveHTTP [] f [([107], [118])] []
            (Request.mk Method.delete [107] [] 0)).db = [([107], [118])]) :=
  C9_metadata_failures [] [([107], [118])] [] [107] [118] 1 (by decide) (by decide)

/-- C10: over the empty pool the placement function returns the empty byte
string rather than an error, and a create over the empty pool proceeds: it
issues the remote put to the URL formed with the empty volume name and, when
the backend and the store calls succeed, records the empty volume name and
reports 201. -/
theorem C10_empty_pool (f : Faults) (db : Db) (locks : List (List Nat))
    (key : List Nat) (cl : Int)
    (hl : key ∉ locks) (hcl : cl ≠ 0) (hdb : dbLookup db key = none)
    (hg : f.getFault = false) (hr : f.remotePutOk = true) (hp : f.putFault = false) :
    key2volume key [] = []
    ∧ (serveHTTP [] f db locks (Request.mk Method.put key [] cl)).status = 201
    ∧ (serveHTTP [] f db locks (Request.mk Method.put key [] cl)).calls
        = [RemoteCall.rput (httpStr ++ key2path key) cl]
    ∧ (serveHTTP [] f db locks (Request.mk Method.put key [] cl)).db = dbPut db key [] := by
  refine ⟨rfl, ?_, ?_, ?_⟩ <;>
    simp [serveHTTP, putHandler, dbGet, key2volume, hl, hcl, hdb, hg, hr, hp]

theorem C10_witness :
    key2volume [107] [] = []
    ∧ (serveHTTP [] (Faults.mk false false false true true) [] []
        (Request.mk Method.put [107] [] 1)).status = 201
    ∧ (serveHTTP [] (Faults.mk false false false true true) [] []
        (Request.mk Method.put [107] [] 1)).calls
        = [RemoteCall.rput (httpStr ++ key2path [107]) 1]
    ∧ (serveHTTP [] (Faults.mk false false false true true) [] []
        (Request.mk Method.put [107] [] 1)).db = dbPut [] [107] [] :=
  C10_empty_pool (Faults.mk false false false true true) [] [] [107] 1
    (by decide) (by decide) (by decide) rfl rfl rfl

end MiniKV
